import Mathlib

/-!
Verification of the feed-discovery engine in `feed_finder/feed_finder.py`.

The Python source is shallowly embedded as executable Lean definitions:

* network effects (the aiohttp session, `feedparser.parse`, the
  BeautifulSoup DOM) are collaborators, modelled by an `Env` record of
  pure functions describing each collaborator's behaviour for the run;
* Python exceptions crossing a boundary are modelled with `Except`
  (for the retry loop) and with the optional `sessionOpen` /
  `sessionClose` failures of the `async with aiohttp.ClientSession`
  context manager (an exception raised on entering, resp. leaving, the
  context propagates to the `try` of `_discover_feeds`);
* machine floats used for delays and rates are modelled over `ℚ`;
* the set of URLs passed to `_fetch_url` is tracked as an explicit
  fetch log, so that claims about which URLs get fetched are statable.
-/

/-- Result of Python `str.lower` on one character, restricted to the
ASCII range that the discovery heuristics exercise. -/
def lowerChar (c : Char) : Char :=
  if 'A' ≤ c ∧ c ≤ 'Z' then Char.ofNat (c.toNat + 32) else c

/-- Model of Python `str.lower` (ASCII fragment). -/
def lowerStr (s : String) : String :=
  String.mk (s.data.map lowerChar)

/-- Test whether the first list is an initial segment of the second. -/
def beginsWith : List Char → List Char → Bool
  | [], _ => true
  | _ :: _, [] => false
  | p :: ps, c :: cs => if p = c then beginsWith ps cs else false

/-- Test whether `pat` occurs contiguously in the second list; this
models the Python `in` test on strings. -/
def hasSubList (pat : List Char) : List Char → Bool
  | [] => pat.isEmpty
  | c :: cs => beginsWith pat (c :: cs) || hasSubList pat cs

/-- Python `pat in s` for strings. -/
def strContains (s pat : String) : Bool :=
  hasSubList pat.data s.data

/-- Python `s.startswith(pat)` for strings. -/
def strStartsWith (s pat : String) : Bool :=
  beginsWith pat.data s.data

/-- Split a character list at the first occurrence of `pat`, returning
the part before and the part after; `none` when `pat` does not occur. -/
def splitOnceSub (pat : List Char) : List Char → Option (List Char × List Char)
  | [] => if pat.isEmpty then some ([], []) else none
  | c :: cs =>
    if beginsWith pat (c :: cs) then some ([], List.drop pat.length (c :: cs))
    else
      match splitOnceSub pat cs with
      | some pr => some (c :: pr.1, pr.2)
      | none => none

/-- Split an absolute URL into its `scheme://host` part and its path
part (the path keeps its leading slash; empty when absent).  Model of
the piece of `urllib.parse` that `urljoin` needs on the URL shapes this
development exercises; query strings, fragments and dot segments are
not modelled. -/
def urlNetlocPath (url : String) : Option (String × String) :=
  match splitOnceSub ("://".data) url.data with
  | none => none
  | some pr =>
      some (String.mk (pr.1 ++ "://".data ++ List.takeWhile (fun c => decide (c ≠ '/')) pr.2),
            String.mk (List.dropWhile (fun c => decide (c ≠ '/')) pr.2))

/-- The path up to and including its last slash (the directory part
that Python urljoin uses for the base path); a bare slash when the
path has no slash at all. -/
def dirSlice (p : List Char) : List Char :=
  let r := List.dropWhile (fun c => decide (c ≠ '/')) p.reverse
  if r.isEmpty then ['/'] else r.reverse

/-- Model of the collaborator `urllib.parse.urljoin`, restricted to the
reference shapes the program produces: the empty reference (resolves to
the base), absolute references carrying a scheme, absolute paths
beginning with `/`, and plain relative names. -/
def urljoin (base rel : String) : String :=
  if rel = "" then base
  else
    match urlNetlocPath rel with
    | some _ => rel
    | none =>
      match urlNetlocPath base with
      | none => rel
      | some pr =>
          if strStartsWith rel ("/") then pr.1 ++ rel
          else pr.1 ++ String.mk (dirSlice pr.2.data) ++ rel

/-- Classification tag of a validated feed (the strings atom and rss
in the source). -/
inductive FeedType where
  | rss : FeedType
  | atom : FeedType
deriving DecidableEq

/-- The dict `{'url': ..., 'type': ..., 'title': ...}` built by
`FeedFinder._check_feed_url` on a positive validation. -/
structure FeedInfo where
  url : String
  type : FeedType
  title : String
deriving DecidableEq

/-- Status field of a per-site result (the strings success and error
in the source). -/
inductive Status where
  | success : Status
  | error : Status
deriving DecidableEq

/-- The dict returned by `FeedFinder._discover_feeds`. -/
structure SiteResult where
  url : String
  feeds : List FeedInfo
  status : Status
  errMsg : Option String
deriving DecidableEq

/-- Relevant shape of a `feedparser.parse` result: `bozo` is the value
`feed.get('bozo', 1)` (defaulting to `1` when the key is absent),
`hasFeed` is the truthiness of `feed.get('feed', {})` (a non-empty
feed-level dict), and `title` records `feed.feed['title']` when
present. -/
structure ParseResult where
  bozo : Nat
  hasFeed : Bool
  title : Option String
deriving DecidableEq

/-- A `<link>` element as seen by `soup.find_all('link')`: its `type`
attribute and `href` attribute, either possibly absent. -/
structure LinkTag where
  typ : Option String
  href : Option String
deriving DecidableEq

/-- An anchor element as seen by `soup.find_all('a', href=True)`: an
`href` that is guaranteed present, and its visible text. -/
structure ATag where
  href : String
  text : String
deriving DecidableEq

/-- The queries `_find_feeds_in_html` makes against a parsed page. -/
structure Page where
  links : List LinkTag
  anchors : List ATag
deriving DecidableEq

/-- Collaborator behaviour for one discovery run.  `fetch` gives, for
each URL, the `(content, status)` pair `_fetch_url` produces for it
(`_fetch_url` never raises, see `fetch_url` below); `parse` is
`feedparser.parse`; `html` is the BeautifulSoup parse of a page body.
`sessionOpen`/`sessionClose` model an exception raised when entering,
resp. leaving, the `async with aiohttp.ClientSession(...)` context:
`some msg` means that step raises and the message reaches the
orchestrator-level `except`. -/
structure Env where
  sessionOpen : Option String
  fetch : String → String × Nat
  parse : String → ParseResult
  html : String → Page
  sessionClose : Option String

/-- URLs passed to `_fetch_url`, in call order. -/
abbrev FetchLog := List String

/-- State set up by `RateLimiter.__init__`: requests-per-second rate
and the shared last-request timestamp. -/
structure RateLimiter where
  rate : ℚ
  last_request : ℚ
deriving DecidableEq

/-- State set up by `RetryStrategy.__init__`. -/
structure RetryStrategy where
  max_retries : Nat
  base_delay : ℚ
deriving DecidableEq

/-- State set up by `FeedFinder.__init__`. -/
structure FeedFinder where
  timeout : Nat
  max_redirects : Nat
  rate_limiter : RateLimiter
  retry_strategy : RetryStrategy

/-- Constructor `FeedFinder.__init__(timeout, max_redirects,
max_retries, requests_per_second)` (Python defaults `10, 5, 3, 2.0`).
Note the source builds `RetryStrategy(max_retries)`, leaving
`base_delay` at the `RetryStrategy.__init__` default `1.0`. -/
def FeedFinder.init (timeout max_redirects max_retries : Nat) (requests_per_second : ℚ) : FeedFinder :=
  { timeout := timeout
    max_redirects := max_redirects
    rate_limiter := { rate := requests_per_second, last_request := 0 }
    retry_strategy := { max_retries := max_retries, base_delay := 1 } }

/-- The fixed list `FeedFinder.COMMON_PATHS`. -/
def FeedFinder.COMMON_PATHS : List String :=
  ["/feed", "/rss", "/atom.xml", "/feed.xml", "/rss.xml", "/index.xml",
   "/feed/atom", "/feed/rss", "/rss/atom", "/blog/feed", "/blog.atom",
   "/feed/wp-rss2.xml", "/wp-feed.php", "/wp-rss.php",
   "/blog/index.rss", "/syndication.axd"]

/-- Model of `FeedFinder._clean_url`: prepend the https scheme when no
scheme is present, then strip every trailing slash (Python rstrip). -/
def FeedFinder.clean_url (url : String) : String :=
  let u := if strStartsWith url ("http://") || strStartsWith url ("https://") then url
           else ("https://") ++ url
  String.mk (u.data.reverse.dropWhile (fun c => decide (c = '/'))).reverse

/-- The `for attempt in range(self.max_retries)` loop of
`RetryStrategy.execute`, instrumented: besides the outcome (`ok none`
models Python's implicit `None` return when the loop body never runs,
which only happens for `max_retries = 0`), it returns the number of
invocations of the operation and the trace of back-off sleeps.
`op i` is the outcome of the `i`-th invocation of the wrapped
operation; `lastIdx` is `max_retries - 1`. -/
def RetryStrategy.execLoop {α : Type} (op : Nat → Except String α) (lastIdx : Nat) (b : ℚ) :
    Nat → Nat → Except String (Option α) × Nat × List ℚ
  | _, 0 => (Except.ok none, 0, [])
  | attempt, fuel + 1 =>
    match op attempt with
    | Except.ok a => (Except.ok (some a), 1, [])
    | Except.error e =>
      if attempt = lastIdx then (Except.error e, 1, [])
      else
        let r := RetryStrategy.execLoop op lastIdx b (attempt + 1) fuel
        (r.1, r.2.1 + 1, b * 2 ^ attempt :: r.2.2)

/-- Model of `RetryStrategy.execute`, instrumented with the attempt
count and the sleep trace (`delay = self.base_delay * (2 ** attempt)`). -/
def RetryStrategy.execute {α : Type} (rs : RetryStrategy) (op : Nat → Except String α) :
    Except String (Option α) × Nat × List ℚ :=
  RetryStrategy.execLoop op (rs.max_retries - 1) rs.base_delay 0 rs.max_retries

/-- Model of `FeedFinder._fetch_url`: run the retry-wrapped `_fetch`
operation; a failure escaping the retry strategy is caught and turned
into the pair of empty body and status 0.  The result is `Option`-valued only to model the
Python `None` return of a zero-iteration retry loop; no exception
crosses this boundary (the return type carries no error case).  The
rate-limiter wait that precedes the attempt affects timing only and is
not modelled here. -/
def FeedFinder.fetch_url (ff : FeedFinder) (op : Nat → Except String (String × Nat)) :
    Option (String × Nat) :=
  match (RetryStrategy.execute ff.retry_strategy op).1 with
  | Except.ok r => r
  | Except.error _ => some ("", 0)

/-- Model of `FeedFinder._check_feed_url` with the fetch outcome
supplied by the environment: none when the status is not 200 or the
body is empty; otherwise parse, and produce a feed dict exactly when
the bozo flag defaults-or-reads to 0 and the feed-level object is
non-empty. -/
def check_feed_url (env : Env) (url : String) : Option FeedInfo :=
  if (env.fetch url).2 ≠ 200 ∨ (env.fetch url).1 = "" then none
  else
    if (env.parse (env.fetch url).1).bozo = 0 ∧ (env.parse (env.fetch url).1).hasFeed then
      some { url := url
             type := if strContains (lowerStr (env.fetch url).1) ("atom") then FeedType.atom
                     else FeedType.rss
             title := ((env.parse (env.fetch url).1).title).getD ("") }
    else none

/-- The `<link>` filter of `_find_feeds_in_html`:
`link.get('type') in ['application/rss+xml', 'application/atom+xml']`. -/
def link_matches (l : LinkTag) : Bool :=
  decide (l.typ = some ("application/rss+xml") ∨ l.typ = some ("application/atom+xml"))

/-- The anchor filter of `_find_feeds_in_html`:
`any(word in text for word in ['rss', 'feed', 'atom', 'subscribe'])`
over the lowercased visible text. -/
def anchor_matches (a : ATag) : Bool :=
  (["rss", "feed", "atom", "subscribe"]).any (fun w => strContains (lowerStr a.text) w)

/-- The `<link>`-tag pass of `_find_feeds_in_html` (first loop): for
each matching tag the missing-href default empty string is resolved against
the base URL, empty resolutions are skipped, and each surviving URL is
validated; positives are appended in order.  The second component logs
the URLs handed to `_check_feed_url`. -/
def linkPass (env : Env) (url : String) : List LinkTag → List FeedInfo × FetchLog
  | [] => ([], [])
  | l :: ls =>
    if link_matches l then
      if urljoin url (l.href.getD ("")) ≠ "" then
        match check_feed_url env (urljoin url (l.href.getD (""))), linkPass env url ls with
        | some fi, (fs, log) => (fi :: fs, urljoin url (l.href.getD ("")) :: log)
        | none, (fs, log) => (fs, urljoin url (l.href.getD ("")) :: log)
      else linkPass env url ls
    else linkPass env url ls

/-- The anchor pass of `_find_feeds_in_html` (second loop): anchors
with feed-suggestive text are resolved and validated, with no
emptiness guard on the resolved URL. -/
def anchorPass (env : Env) (url : String) : List ATag → List FeedInfo × FetchLog
  | [] => ([], [])
  | a :: as =>
    if anchor_matches a then
      match check_feed_url env (urljoin url a.href), anchorPass env url as with
      | some fi, (fs, log) => (fi :: fs, urljoin url a.href :: log)
      | none, (fs, log) => (fs, urljoin url a.href :: log)
    else anchorPass env url as

/-- Model of `FeedFinder._find_feeds_in_html`: link-tag pass then
anchor pass, results concatenated in that order. -/
def find_feeds_in_html (env : Env) (url content : String) : List FeedInfo × FetchLog :=
  ((linkPass env url (env.html content).links).1 ++ (anchorPass env url (env.html content).anchors).1,
   (linkPass env url (env.html content).links).2 ++ (anchorPass env url (env.html content).anchors).2)

/-- The candidate URLs scanned out of a page, in scan order: this is
the spec's `HtmlLinkScanner.scan` — matching `<link>` hrefs resolved
against the base (non-empty resolutions only), then feed-suggestive
anchor hrefs resolved against the base. -/
def scan_candidates (env : Env) (url content : String) : List String :=
  (((env.html content).links.filter link_matches).map
      (fun l => urljoin url (l.href.getD ("")))).filter (fun u => decide (u ≠ ""))
    ++ ((env.html content).anchors.filter anchor_matches).map (fun a => urljoin url a.href)

/-- The known-path loop of `_discover_feeds` (lines 172-177): probe
every path, appending positive validations in list order; the log
records every probed URL. -/
def probePaths (env : Env) (url : String) : List String → List FeedInfo × FetchLog
  | [] => ([], [])
  | p :: ps =>
    match check_feed_url env (urljoin url p), probePaths env url ps with
    | some fi, (fs, log) => (fi :: fs, urljoin url p :: log)
    | none, (fs, log) => (fs, urljoin url p :: log)

/-- The body of the `try` block of `_discover_feeds` between session
entry and session exit (lines 172-184): known-path probing, then —
only when that produced nothing — a fetch of the site root followed,
on a 200 status with a non-empty body, by the HTML scan. -/
def collect (env : Env) (url : String) : List FeedInfo × FetchLog :=
  if (probePaths env url FeedFinder.COMMON_PATHS).1 = [] then
    if (env.fetch url).2 = 200 ∧ (env.fetch url).1 ≠ "" then
      ((probePaths env url FeedFinder.COMMON_PATHS).1 ++ (find_feeds_in_html env url (env.fetch url).1).1,
       (probePaths env url FeedFinder.COMMON_PATHS).2 ++ url :: (find_feeds_in_html env url (env.fetch url).1).2)
    else ((probePaths env url FeedFinder.COMMON_PATHS).1,
          (probePaths env url FeedFinder.COMMON_PATHS).2 ++ [url])
  else probePaths env url FeedFinder.COMMON_PATHS

/-- Model of `FeedFinder._discover_feeds`: result dict starts as
`success`/no-error; an exception entering the session context yields
an error result before any probe; an exception leaving it yields an
error result that keeps whatever `result['feeds']` already holds. -/
def discover_feeds (env : Env) (rawUrl : String) : SiteResult × FetchLog :=
  match env.sessionOpen with
  | some e => ({ url := FeedFinder.clean_url rawUrl, feeds := [], status := Status.error, errMsg := some e }, [])
  | none =>
    match env.sessionClose with
    | some e =>
        ({ url := FeedFinder.clean_url rawUrl
           feeds := (collect env (FeedFinder.clean_url rawUrl)).1
           status := Status.error, errMsg := some e },
         (collect env (FeedFinder.clean_url rawUrl)).2)
    | none =>
        ({ url := FeedFinder.clean_url rawUrl
           feeds := (collect env (FeedFinder.clean_url rawUrl)).1
           status := Status.success, errMsg := none },
         (collect env (FeedFinder.clean_url rawUrl)).2)

/-- Phase-1 feeds of a run: what the known-path loop appends. -/
def phase1Feeds (env : Env) (raw : String) : List FeedInfo :=
  (probePaths env (FeedFinder.clean_url raw) FeedFinder.COMMON_PATHS).1

/-- Both phases contribute entries to one result: the known-path phase
appended something, and the final feeds list strictly extends it. -/
def MixedPhases (env : Env) (raw : String) : Prop :=
  phase1Feeds env raw ≠ [] ∧
    ∃ extra, extra ≠ [] ∧ (discover_feeds env raw).1.feeds = phase1Feeds env raw ++ extra

/-- Events of one `RateLimiter.acquire` call, in program order. -/
inductive LimiterEv where
  | lockAcquire : LimiterEv
  | sleep : ℚ → LimiterEv
  | writeTimestamp : LimiterEv
  | lockRelease : LimiterEv
deriving DecidableEq

/-- Event trace of `RateLimiter.acquire` at wall-clock time `now`: the
whole body runs under `async with self._lock`, computing
`wait_time = max(0, 1/rate - (now - last_request))`, sleeping when it
is positive, then writing the timestamp. -/
def RateLimiter.acquire_trace (rl : RateLimiter) (now : ℚ) : List LimiterEv :=
  LimiterEv.lockAcquire ::
    ((if 0 < max 0 (1 / rl.rate - (now - rl.last_request)) then
        [LimiterEv.sleep (max 0 (1 / rl.rate - (now - rl.last_request)))]
      else []) ++ [LimiterEv.writeTimestamp, LimiterEv.lockRelease])

/-- Every sleep of the trace falls outside the lock-held region: no
sleep event sits between a lock acquisition and a later release. -/
def SleepsOutsideLock (tr : List LimiterEv) : Prop :=
  ∀ i j k d, i < j → j < k →
    tr.get? i = some LimiterEv.lockAcquire →
    tr.get? k = some LimiterEv.lockRelease →
    tr.get? j ≠ some (LimiterEv.sleep d)

/-- A page with no links at all. -/
def pageEmpty : Page := { links := [], anchors := [] }

/-- A parser behaviour that reports every document malformed. -/
def parseNever : String → ParseResult := fun _ => { bozo := 1, hasFeed := false, title := none }

/-- A parser behaviour that accepts the three well-formed bodies used
by the concrete runs below and reports everything else malformed. -/
def parseGood : String → ParseResult := fun s =>
  if s = "r1" ∨ s = "r2" ∨ s = "good" then { bozo := 0, hasFeed := true, title := some ("T") }
  else { bozo := 1, hasFeed := false, title := none }

/-- A site where every fetch comes back 404. -/
def env404 : Env :=
  { sessionOpen := none, fetch := fun _ => ("", 404), parse := parseNever,
    html := fun _ => pageEmpty, sessionClose := none }

/-- A site serving valid feeds at `/feed` and `/rss.xml` only. -/
def fetch2 : String → String × Nat := fun u =>
  if u = "https://e.com/feed" then ("r1", 200)
  else if u = "https://e.com/rss.xml" then ("r2", 200)
  else ("", 404)

def env2 : Env :=
  { sessionOpen := none, fetch := fetch2, parse := parseGood,
    html := fun _ => pageEmpty, sessionClose := none }

def feedHitW : FeedInfo := { url := "https://e.com/feed", type := FeedType.rss, title := "T" }

def rssXmlHitW : FeedInfo := { url := "https://e.com/rss.xml", type := FeedType.rss, title := "T" }

/-- An HTTP operation that fails on every attempt. -/
def opFail : Nat → Except String (String × Nat) := fun _ => Except.error ("timeout")

/-- An always-failing operation for the retry-strategy run. -/
def opFailN : Nat → Except String Nat := fun _ => Except.error ("boom")

/-- A `FeedFinder` built with the Python default arguments. -/
def ffDefault : FeedFinder := FeedFinder.init 10 5 3 2

/-- A fetch behaviour serving one well-formed Atom body everywhere. -/
def env5 : Env :=
  { sessionOpen := none, fetch := fun _ => ("An ATOM feed", 200),
    parse := fun _ => { bozo := 0, hasFeed := true, title := some ("T5") },
    html := fun _ => pageEmpty, sessionClose := none }

/-- A site serving a valid feed at `/feed` only. -/
def fetch6 : String → String × Nat := fun u =>
  if u = "https://e.com/feed" then ("good", 200) else ("", 404)

/-- The site of `fetch6` with a clean session teardown. -/
def env6base : Env :=
  { sessionOpen := none, fetch := fetch6, parse := parseGood,
    html := fun _ => pageEmpty, sessionClose := none }

/-- The site of `fetch6` whose session teardown raises after both
phases completed. -/
def env6 : Env :=
  { sessionOpen := none, fetch := fetch6, parse := parseGood,
    html := fun _ => pageEmpty, sessionClose := some ("connection reset") }

/-- A site with no feed on any known path whose homepage links the same
feed URL from a `<link>` tag and from an anchor. -/
def fetch7 : String → String × Nat := fun u =>
  if u = "https://e.com" then ("H", 200)
  else if u = "https://e.com/podcast" then ("good", 200)
  else ("", 404)

def page7 : Page :=
  { links := [{ typ := some ("application/rss+xml"), href := some ("/podcast") }],
    anchors := [{ href := "/podcast", text := "RSS" }] }

def env7 : Env :=
  { sessionOpen := none, fetch := fetch7, parse := parseGood,
    html := fun _ => page7, sessionClose := none }

def podcastHitW : FeedInfo := { url := "https://e.com/podcast", type := FeedType.rss, title := "T" }

/-- A feed-typed `<link>` element carrying no `href` attribute. -/
def linkNoHref : LinkTag := { typ := some ("application/rss+xml"), href := none }

def pageNoHref : Page := { links := [linkNoHref], anchors := [] }

def envNoHref : Env :=
  { sessionOpen := none, fetch := fun _ => ("", 404), parse := parseNever,
    html := fun _ => pageNoHref, sessionClose := none }

theorem execLoop_succ_ok {α : Type} (op : Nat → Except String α) (lastIdx : Nat) (b : ℚ)
    (attempt fuel : Nat) (a : α) (h : op attempt = Except.ok a) :
    RetryStrategy.execLoop op lastIdx b attempt (fuel + 1) = (Except.ok (some a), 1, []) := by
  simp only [RetryStrategy.execLoop, h]

theorem execLoop_succ_last {α : Type} (op : Nat → Except String α) (lastIdx : Nat) (b : ℚ)
    (attempt fuel : Nat) (msg : String) (h : op attempt = Except.error msg)
    (he : attempt = lastIdx) :
    RetryStrategy.execLoop op lastIdx b attempt (fuel + 1) = (Except.error msg, 1, []) := by
  simp only [RetryStrategy.execLoop, h, if_pos he]

theorem execLoop_succ_retry {α : Type} (op : Nat → Except String α) (lastIdx : Nat) (b : ℚ)
    (attempt fuel : Nat) (msg : String) (h : op attempt = Except.error msg)
    (hne : attempt ≠ lastIdx) :
    RetryStrategy.execLoop op lastIdx b attempt (fuel + 1)
      = ((RetryStrategy.execLoop op lastIdx b (attempt + 1) fuel).1,
         (RetryStrategy.execLoop op lastIdx b (attempt + 1) fuel).2.1 + 1,
         b * 2 ^ attempt :: (RetryStrategy.execLoop op lastIdx b (attempt + 1) fuel).2.2) := by
  simp only [RetryStrategy.execLoop, h, if_neg hne]

theorem delays_shift (b : ℚ) (a0 n : Nat) :
    b * 2 ^ a0 :: (List.range n).map (fun j => b * 2 ^ (a0 + 1 + j))
      = (List.range (n + 1)).map (fun j => b * 2 ^ (a0 + j)) := by
  rw [List.range_succ_eq_map, List.map_cons, List.map_map]
  have h2 : ((fun j => b * 2 ^ (a0 + j)) ∘ Nat.succ) = (fun j => b * 2 ^ (a0 + 1 + j)) := by
    funext j
    show b * 2 ^ (a0 + Nat.succ j) = b * 2 ^ (a0 + 1 + j)
    have hj : a0 + Nat.succ j = a0 + 1 + j := by omega
    rw [hj]
  simp [h2]

theorem execLoop_all_fail {α : Type} (op : Nat → Except String α) (b : ℚ) (e : Nat → String) :
    ∀ fuel a0, 0 < fuel → (∀ j, j < fuel → op (a0 + j) = Except.error (e (a0 + j))) →
      RetryStrategy.execLoop op (a0 + fuel - 1) b a0 fuel
        = (Except.error (e (a0 + fuel - 1)), fuel,
           (List.range (fuel - 1)).map (fun j => b * 2 ^ (a0 + j))) := by
  intro fuel
  induction fuel with
  | zero => intro a0 h; omega
  | succ f ih =>
    intro a0 _ hall
    have h0 : op a0 = Except.error (e a0) := by
      have := hall 0 (Nat.succ_pos f)
      simpa using this
    cases f with
    | zero =>
      rw [execLoop_succ_last op (a0 + 1 - 1) b a0 0 (e a0) h0 (by omega)]
      simp
    | succ g =>
      have hne : a0 ≠ a0 + (g + 1 + 1) - 1 := by omega
      have hrec := ih (a0 + 1) (Nat.succ_pos g) (by
        intro j hj
        have := hall (j + 1) (by omega)
        simpa [Nat.add_assoc, Nat.add_comm 1 j, Nat.add_left_comm] using this)
      have hidx : a0 + 1 + (g + 1) - 1 = a0 + (g + 1 + 1) - 1 := by omega
      rw [hidx] at hrec
      rw [execLoop_succ_retry op (a0 + (g + 1 + 1) - 1) b a0 (g + 1) (e a0) h0 hne, hrec]
      dsimp only
      simp only [Nat.add_sub_cancel]
      rw [delays_shift b a0 g]

theorem execLoop_first_success {α : Type} (op : Nat → Except String α) (b : ℚ) (e : Nat → String) (a : α) :
    ∀ k a0 fuel, k < fuel → (∀ j, j < k → op (a0 + j) = Except.error (e (a0 + j))) →
      op (a0 + k) = Except.ok a →
      RetryStrategy.execLoop op (a0 + fuel - 1) b a0 fuel
        = (Except.ok (some a), k + 1, (List.range k).map (fun j => b * 2 ^ (a0 + j))) := by
  intro k
  induction k with
  | zero =>
    intro a0 fuel hk _ hok
    cases fuel with
    | zero => omega
    | succ f =>
      have h : op a0 = Except.ok a := by simpa using hok
      rw [execLoop_succ_ok op (a0 + (f + 1) - 1) b a0 f a h]
      simp
  | succ m ih =>
    intro a0 fuel hk hfail hok
    cases fuel with
    | zero => omega
    | succ f =>
      have h0 : op a0 = Except.error (e a0) := by
        have := hfail 0 (Nat.succ_pos m)
        simpa using this
      have hne : a0 ≠ a0 + (f + 1) - 1 := by omega
      have hrec := ih (a0 + 1) f (by omega) (by
        intro j hj
        have := hfail (j + 1) (by omega)
        simpa [Nat.add_assoc, Nat.add_comm 1 j, Nat.add_left_comm] using this)
        (by simpa [Nat.add_assoc, Nat.add_comm 1 m, Nat.add_left_comm] using hok)
      have hidx : a0 + 1 + f - 1 = a0 + (f + 1) - 1 := by omega
      rw [hidx] at hrec
      rw [execLoop_succ_retry op (a0 + (f + 1) - 1) b a0 f (e a0) h0 hne, hrec]
      dsimp only
      rw [delays_shift b a0 m]

theorem probePaths_log (env : Env) (url : String) :
    ∀ ps : List String, (probePaths env url ps).2 = ps.map (fun p => urljoin url p) := by
  intro ps
  induction ps with
  | nil => rfl
  | cons p ps ih =>
    simp only [probePaths]
    cases h : check_feed_url env (urljoin url p) <;> simp [h, ih]

theorem probePaths_feeds (env : Env) (url : String) (sel : String → Option FeedInfo) :
    ∀ ps : List String, (∀ p ∈ ps, check_feed_url env (urljoin url p) = sel p) →
      (probePaths env url ps).1 = ps.filterMap sel := by
  intro ps
  induction ps with
  | nil => intro _; rfl
  | cons p ps ih =>
    intro h
    have hp := h p (List.mem_cons_self p ps)
    have hr := ih (fun q hq => h q (List.mem_cons_of_mem p hq))
    cases hs : sel p <;>
      simp only [probePaths, List.filterMap_cons, hs] <;>
      rw [hp, hs] <;>
      simp [hr]

theorem linkPass_eq (env : Env) (url : String) :
    ∀ ls : List LinkTag,
      linkPass env url ls
        = ((((ls.filter link_matches).map (fun l => urljoin url (l.href.getD ("")))).filter
              (fun u => decide (u ≠ ""))).filterMap (check_feed_url env),
           (((ls.filter link_matches).map (fun l => urljoin url (l.href.getD ("")))).filter
              (fun u => decide (u ≠ "")))) := by
  intro ls
  induction ls with
  | nil => rfl
  | cons l ls ih =>
    by_cases hm : link_matches l
    · by_cases he : urljoin url (l.href.getD ("")) = ""
      · simp [linkPass, List.filter_cons, hm, he, ih]
      · cases hc : check_feed_url env (urljoin url (l.href.getD (""))) <;>
          simp [linkPass, List.filter_cons, List.filterMap_cons, hm, he, hc, ih]
    · simp [linkPass, List.filter_cons, hm, ih]

theorem anchorPass_eq (env : Env) (url : String) :
    ∀ as : List ATag,
      anchorPass env url as
        = (((as.filter anchor_matches).map (fun a => urljoin url a.href)).filterMap
             (check_feed_url env),
           ((as.filter anchor_matches).map (fun a => urljoin url a.href))) := by
  intro as
  induction as with
  | nil => rfl
  | cons a as ih =>
    by_cases hm : anchor_matches a
    · cases hc : check_feed_url env (urljoin url a.href) <;>
        simp [anchorPass, List.filter_cons, List.filterMap_cons, hm, hc, ih]
    · simp [anchorPass, List.filter_cons, hm, ih]

theorem find_feeds_in_html_eq (env : Env) (url content : String) :
    find_feeds_in_html env url content
      = ((scan_candidates env url content).filterMap (check_feed_url env),
         scan_candidates env url content) := by
  simp [find_feeds_in_html, scan_candidates, linkPass_eq, anchorPass_eq, List.filterMap_append]

theorem discover_phase1_hit (env : Env) (raw : String) (hOpen : env.sessionOpen = none)
    (hne : (probePaths env (FeedFinder.clean_url raw) FeedFinder.COMMON_PATHS).1 ≠ []) :
    (discover_feeds env raw).1.feeds
        = (probePaths env (FeedFinder.clean_url raw) FeedFinder.COMMON_PATHS).1
    ∧ (discover_feeds env raw).2
        = (probePaths env (FeedFinder.clean_url raw) FeedFinder.COMMON_PATHS).2 := by
  simp only [discover_feeds, hOpen]
  cases hc : env.sessionClose <;> simp [collect, hne]

theorem discover_phase1_miss (env : Env) (raw : String) (hOpen : env.sessionOpen = none)
    (he : (probePaths env (FeedFinder.clean_url raw) FeedFinder.COMMON_PATHS).1 = []) :
    (discover_feeds env raw).1.feeds
        = (if (env.fetch (FeedFinder.clean_url raw)).2 = 200 ∧ (env.fetch (FeedFinder.clean_url raw)).1 ≠ "" then
             (scan_candidates env (FeedFinder.clean_url raw) (env.fetch (FeedFinder.clean_url raw)).1).filterMap
               (check_feed_url env)
           else [])
    ∧ (discover_feeds env raw).2
        = (probePaths env (FeedFinder.clean_url raw) FeedFinder.COMMON_PATHS).2
            ++ FeedFinder.clean_url raw ::
              (if (env.fetch (FeedFinder.clean_url raw)).2 = 200 ∧ (env.fetch (FeedFinder.clean_url raw)).1 ≠ "" then
                 scan_candidates env (FeedFinder.clean_url raw) (env.fetch (FeedFinder.clean_url raw)).1
               else []) := by
  simp only [discover_feeds, hOpen]
  cases hc : env.sessionClose <;>
    by_cases hf : (env.fetch (FeedFinder.clean_url raw)).2 = 200 ∧ (env.fetch (FeedFinder.clean_url raw)).1 ≠ "" <;>
    simp [collect, he, hf, find_feeds_in_html_eq]

/-- C3: whenever the retry-wrapped HTTP operation inside
`FeedFinder._fetch_url` ultimately fails, the failure is not
propagated: `fetch_url` returns the pair of empty body and status 0
instead.  The
return type of `fetch_url` carries no error case, so no exception
crosses the Fetcher boundary (the error observation the source logs at
that point is a side effect outside this model). -/
theorem fetch_url_absorbs_failure (ff : FeedFinder) (op : Nat → Except String (String × Nat))
    (e : String) (h : (RetryStrategy.execute ff.retry_strategy op).1 = Except.error e) :
    FeedFinder.fetch_url ff op = some ("", 0) := by
  simp [FeedFinder.fetch_url, h]

theorem fetch_url_absorbs_failure_witness :
    FeedFinder.fetch_url ffDefault opFail = some ("", 0) :=
  fetch_url_absorbs_failure ffDefault opFail ("timeout") rfl

/-- C4: `RetryStrategy.execute` invokes the operation up to
`max_retries` times: it returns the first successful result without
surfacing earlier failures (second conjunct); on an operation that
fails every time it performs exactly `max_retries` attempts and then
propagates the last failure, and the sleep before retry attempt `i+1`
is `base_delay * 2 ^ i` seconds (first conjunct). -/
theorem retry_execute_attempts_and_delays {α : Type} (m : Nat) (hm : 0 < m) (b : ℚ)
    (op : Nat → Except String α) (e : Nat → String) (a : α) (k : Nat) :
    ((∀ i, i < m → op i = Except.error (e i)) →
        RetryStrategy.execute { max_retries := m, base_delay := b } op
          = (Except.error (e (m - 1)), m, (List.range (m - 1)).map (fun i => b * 2 ^ i)))
    ∧ (k < m → (∀ j, j < k → op j = Except.error (e j)) → op k = Except.ok a →
        RetryStrategy.execute { max_retries := m, base_delay := b } op
          = (Except.ok (some a), k + 1, (List.range k).map (fun i => b * 2 ^ i))) := by
  constructor
  · intro hall
    have h := execLoop_all_fail op b e m 0 hm (by intro j hj; simpa using hall j hj)
    simpa [RetryStrategy.execute] using h
  · intro hk hfail hok
    have h := execLoop_first_success op b e a k 0 m hk
      (by intro j hj; simpa using hfail j hj) (by simpa using hok)
    simpa [RetryStrategy.execute] using h

theorem retry_execute_attempts_and_delays_witness :
    RetryStrategy.execute { max_retries := 3, base_delay := 1 } opFailN
      = (Except.error ("boom"), 3, [1, 2]) := by
  have h := (retry_execute_attempts_and_delays 3 (by norm_num) 1 opFailN
    (fun _ => "boom") 0 0).1 (fun i _ => rfl)
  rw [h]
  norm_num [List.range_succ]

/-- C8 counterexample: the public constructor `FeedFinder.__init__`
does not make the retry base delay configurable — no choice of its
four arguments produces a retry strategy whose base delay is `2`
(it is always the `RetryStrategy.__init__` default `1.0`). -/
theorem base_delay_not_configurable :
    ¬ ∃ t r m q, (FeedFinder.init t r m q).retry_strategy.base_delay = 2 := by
  rintro ⟨t, r, m, q, h⟩
  norm_num [FeedFinder.init] at h

/-- C8 amended: the discovery-session constructor recognizes exactly
four options — `timeout`, `max_redirects`, `max_retries`,
`requests_per_second` — and each takes effect; `baseRetryDelay` is not
among them: the retry strategy is always built with base delay `1.0`,
configurable only through the constructor of `RetryStrategy`, which
`FeedFinder.__init__` does not expose. -/
theorem constructor_options_effective (t r m : Nat) (q : ℚ) :
    (FeedFinder.init t r m q).timeout = t
    ∧ (FeedFinder.init t r m q).max_redirects = r
    ∧ (FeedFinder.init t r m q).retry_strategy.max_retries = m
    ∧ (FeedFinder.init t r m q).rate_limiter.rate = q
    ∧ (FeedFinder.init t r m q).retry_strategy.base_delay = 1 :=
  ⟨rfl, rfl, rfl, rfl, rfl⟩

/-- C9 counterexample: in `RateLimiter.acquire` the backoff sleep is
*not* outside the lock-held region — at `rate = 2`, `last_request = 0`,
`now = 0` the trace holds a sleep event strictly between the lock
acquisition and the lock release. -/
theorem acquire_trace_ex :
    RateLimiter.acquire_trace { rate := 2, last_request := 0 } 0
      = [LimiterEv.lockAcquire, LimiterEv.sleep (1 / 2),
         LimiterEv.writeTimestamp, LimiterEv.lockRelease] := by
  have hm : max (0 : ℚ) (1 / 2 - (0 - 0)) = 1 / 2 - (0 - 0) := max_eq_right (by norm_num)
  unfold RateLimiter.acquire_trace
  rw [hm]
  norm_num

theorem sleep_inside_lock_cex :
    ¬ SleepsOutsideLock (RateLimiter.acquire_trace { rate := 2, last_request := 0 } 0) := by
  intro h
  exact h 0 1 3 (1 / 2) (by norm_num) (by norm_num)
    (by rw [acquire_trace_ex]; rfl) (by rw [acquire_trace_ex]; rfl)
    (by rw [acquire_trace_ex]; rfl)

/-- C9 amended: the mutual-exclusion lock of `RateLimiter.acquire` is
held for the whole acquire operation, *including* across the backoff
sleep: whenever a positive wait is due, the trace is lock acquisition,
then the sleep, then the timestamp write, then the release. -/
theorem lock_held_across_sleep (rl : RateLimiter) (now : ℚ)
    (hw : 0 < 1 / rl.rate - (now - rl.last_request)) :
    RateLimiter.acquire_trace rl now
      = [LimiterEv.lockAcquire, LimiterEv.sleep (1 / rl.rate - (now - rl.last_request)),
         LimiterEv.writeTimestamp, LimiterEv.lockRelease] := by
  have hm : max 0 (1 / rl.rate - (now - rl.last_request)) = 1 / rl.rate - (now - rl.last_request) :=
    max_eq_right hw.le
  unfold RateLimiter.acquire_trace
  rw [hm, if_pos hw]
  rfl

theorem lock_held_across_sleep_witness :
    RateLimiter.acquire_trace { rate := 2, last_request := 0 } 0
      = [LimiterEv.lockAcquire, LimiterEv.sleep (1 / 2),
         LimiterEv.writeTimestamp, LimiterEv.lockRelease] := by
  have h := lock_held_across_sleep { rate := 2, last_request := 0 } 0 (by norm_num)
  rw [h]
  norm_num

/-- C5: the validation step of `_check_feed_url` returns none whenever the
status is not 200 or the body is empty, regardless of content; on a
parse reported well-formed (`bozo = 0`) that contains a feed-level
object, it returns a candidate typed ATOM exactly when the raw body
contains the case-insensitive substring `atom` (else RSS) with the
parsed title (empty string when absent); on any parse failure it
returns `None`. -/
theorem validate_feed_classification (env : Env) (url : String) :
    ((env.fetch url).2 ≠ 200 ∨ (env.fetch url).1 = "" → check_feed_url env url = none)
    ∧ ((env.fetch url).2 = 200 → (env.fetch url).1 ≠ "" →
        (((env.parse (env.fetch url).1).bozo = 0 ∧ (env.parse (env.fetch url).1).hasFeed →
            check_feed_url env url
              = some { url := url
                       type := if strContains (lowerStr (env.fetch url).1) ("atom") then FeedType.atom
                               else FeedType.rss
                       title := ((env.parse (env.fetch url).1).title).getD ("") })
         ∧ (¬ ((env.parse (env.fetch url).1).bozo = 0 ∧ (env.parse (env.fetch url).1).hasFeed) →
            check_feed_url env url = none))) := by
  constructor
  · intro h
    simp [check_feed_url, h]
  · intro h2 h1
    constructor
    · intro hb
      simp [check_feed_url, h2, h1, hb]
    · intro hb
      simp [check_feed_url, h2, h1, hb]

theorem validate_feed_classification_witness :
    check_feed_url env5 ("u") = some { url := "u", type := FeedType.atom, title := "T5" } := by
  have h := ((validate_feed_classification env5 ("u")).2 rfl (by decide)).1 (by decide)
  rw [h]
  decide

/-- C10: a feed-typed `<link>` element with no `href` attribute is not
skipped: its missing href resolves via `urljoin` with the empty string
to the base page URL itself, which — being non-empty — survives the
emptiness guard, appears among the scanner's candidates, and is fetched
and validated (the HTML pass's fetch log lists exactly the validated
candidates). -/
theorem linktag_missing_href_resolves_to_base (env : Env) (url content : String)
    (hu : url ≠ "") (l : LinkTag) (hmem : l ∈ (env.html content).links)
    (ht : l.typ = some ("application/rss+xml") ∨ l.typ = some ("application/atom+xml"))
    (hh : l.href = none) :
    urljoin url (l.href.getD ("")) = url
    ∧ url ∈ scan_candidates env url content
    ∧ url ∈ (find_feeds_in_html env url content).2 := by
  have hres : urljoin url (l.href.getD ("")) = url := by
    rw [hh]
    rfl
  have hscan : url ∈ scan_candidates env url content := by
    apply List.mem_append_left
    apply List.mem_filter.2
    refine ⟨List.mem_map.2 ⟨l, List.mem_filter.2 ⟨hmem, ?_⟩, hres⟩, ?_⟩
    · simp [link_matches]
      exact ht
    · exact decide_eq_true hu
  exact ⟨hres, hscan, by rw [find_feeds_in_html_eq]; exact hscan⟩

theorem linktag_missing_href_resolves_to_base_witness :
    ("https://e.com" : String) ∈ (find_feeds_in_html envNoHref ("https://e.com") ("H")).2 :=
  (linktag_missing_href_resolves_to_base envNoHref ("https://e.com") ("H") (by decide)
    linkNoHref (by decide) (by decide) rfl).2.2

/-- C1: the HTML-fallback phase of `_discover_feeds` runs iff the
known-path phase appended zero feeds.  When phase 1 appended at least
one feed, the result's feeds and the fetch log are exactly phase 1's —
in particular the root URL is never fetched for HTML scanning.  When
phase 1 appended nothing, the root URL is fetched right after the
known-path probes, and on a 200 status with a non-empty body every
scanner candidate is validated, the positives appended in scan
order. -/
theorem discover_html_fallback_iff (env : Env) (raw : String) (hOpen : env.sessionOpen = none) :
    ((probePaths env (FeedFinder.clean_url raw) FeedFinder.COMMON_PATHS).1 ≠ [] →
        (discover_feeds env raw).1.feeds
            = (probePaths env (FeedFinder.clean_url raw) FeedFinder.COMMON_PATHS).1
        ∧ (discover_feeds env raw).2
            = (probePaths env (FeedFinder.clean_url raw) FeedFinder.COMMON_PATHS).2)
    ∧ ((probePaths env (FeedFinder.clean_url raw) FeedFinder.COMMON_PATHS).1 = [] →
        (discover_feeds env raw).1.feeds
            = (if (env.fetch (FeedFinder.clean_url raw)).2 = 200 ∧ (env.fetch (FeedFinder.clean_url raw)).1 ≠ "" then
                 (scan_candidates env (FeedFinder.clean_url raw) (env.fetch (FeedFinder.clean_url raw)).1).filterMap
                   (check_feed_url env)
               else [])
        ∧ (discover_feeds env raw).2
            = (probePaths env (FeedFinder.clean_url raw) FeedFinder.COMMON_PATHS).2
                ++ FeedFinder.clean_url raw ::
                  (if (env.fetch (FeedFinder.clean_url raw)).2 = 200 ∧ (env.fetch (FeedFinder.clean_url raw)).1 ≠ "" then
                     scan_candidates env (FeedFinder.clean_url raw) (env.fetch (FeedFinder.clean_url raw)).1
                   else [])) :=
  ⟨fun hne => discover_phase1_hit env raw hOpen hne,
   fun he => discover_phase1_miss env raw hOpen he⟩

theorem discover_html_fallback_iff_witness :
    (discover_feeds env404 ("example.com")).1.feeds = [] := by
  have h := (discover_html_fallback_iff env404 ("example.com") rfl).2 (by decide)
  rw [h.1]
  decide

/-- C2: the known-path phase probes every path of `COMMON_PATHS`
unconditionally in list order — the fetch log of the phase is exactly
the resolved path list — and never short-circuits: when exactly
`/feed` and `/rss.xml` validate, the result's feeds list is exactly
those two candidates, in that order. -/
theorem discover_probes_all_known_paths (env : Env) (raw : String) (f1 f2 : FeedInfo)
    (hOpen : env.sessionOpen = none)
    (hv : ∀ p ∈ FeedFinder.COMMON_PATHS,
        check_feed_url env (urljoin (FeedFinder.clean_url raw) p)
          = if p = "/feed" then some f1 else if p = "/rss.xml" then some f2 else none) :
    (probePaths env (FeedFinder.clean_url raw) FeedFinder.COMMON_PATHS).2
        = FeedFinder.COMMON_PATHS.map (fun p => urljoin (FeedFinder.clean_url raw) p)
    ∧ (discover_feeds env raw).1.feeds = [f1, f2] := by
  have hfeeds : (probePaths env (FeedFinder.clean_url raw) FeedFinder.COMMON_PATHS).1 = [f1, f2] := by
    rw [probePaths_feeds env (FeedFinder.clean_url raw)
      (fun p => if p = "/feed" then some f1 else if p = "/rss.xml" then some f2 else none)
      FeedFinder.COMMON_PATHS hv]
    rfl
  refine ⟨probePaths_log env (FeedFinder.clean_url raw) FeedFinder.COMMON_PATHS, ?_⟩
  have h := discover_phase1_hit env raw hOpen (by rw [hfeeds]; simp)
  rw [h.1, hfeeds]

theorem discover_probes_all_known_paths_witness :
    (discover_feeds env2 ("e.com")).1.feeds = [feedHitW, rssXmlHitW] :=
  (discover_probes_all_known_paths env2 ("e.com") feedHitW rssXmlHitW rfl (by decide)).2

/-- C6 counterexample: a site whose `/feed` validates and whose session
teardown then raises produces a result with `status = ERROR` and a
*non-empty* feeds list — the partially collected feeds survive into the
error-status result. -/
theorem error_status_nonempty_feeds_cex :
    (discover_feeds env6 ("e.com")).1.status = Status.error
    ∧ (discover_feeds env6 ("e.com")).1.feeds = [feedHitW]
    ∧ (discover_feeds env6 ("e.com")).1.feeds ≠ [] := by decide

/-- C6 amended: when the orchestrator-level `except` fires after the
session was entered (here: on session teardown), the ERROR result keeps
exactly the feeds the run had collected (`collect`), which may be
non-empty; `result['feeds']` is not cleared on error.  Only a failure
that precedes every append (e.g. at session setup) leaves the feeds
list empty. -/
theorem error_result_keeps_collected_feeds (env : Env) (raw : String) (e : String)
    (hOpen : env.sessionOpen = none) (hClose : env.sessionClose = some e) :
    (discover_feeds env raw).1.status = Status.error
    ∧ (discover_feeds env raw).1.errMsg = some e
    ∧ (discover_feeds env raw).1.feeds = (collect env (FeedFinder.clean_url raw)).1 := by
  simp [discover_feeds, hOpen, hClose]

theorem error_result_keeps_collected_feeds_witness :
    (discover_feeds env6 ("e.com")).1.feeds = (collect env6 (FeedFinder.clean_url ("e.com"))).1 :=
  (error_result_keeps_collected_feeds env6 ("e.com") ("connection reset") rfl rfl).2.2

/-- C7 counterexample: no run of `_discover_feeds` can produce a feeds
list to which both phases contributed — whenever the known-path phase
appended anything, the result's feeds list is exactly the phase-1 list,
never a strict extension of it.  A URL therefore can never appear once
from the known-path phase and once from the HTML-fallback phase. -/
theorem no_cross_phase_duplicate : ¬ ∃ env raw, MixedPhases env raw := by
  rintro ⟨env, raw, hne, extra, hex, heq⟩
  unfold phase1Feeds at hne heq
  cases ho : env.sessionOpen with
  | some e =>
    simp [discover_feeds, ho] at heq
    exact hne heq.1
  | none =>
    by_cases hp : (probePaths env (FeedFinder.clean_url raw) FeedFinder.COMMON_PATHS).1 = []
    · exact hne hp
    · cases hc : env.sessionClose with
      | some e =>
        simp [discover_feeds, ho, hc, collect, hp] at heq
        have hlen := congrArg List.length heq
        simp at hlen
        exact hex hlen
      | none =>
        simp [discover_feeds, ho, hc, collect, hp] at heq
        have hlen := congrArg List.length heq
        simp at hlen
        exact hex hlen

/-- C7 amended: there is indeed no duplicate-suppression, but the
duplication arises *within* the HTML-fallback phase: a feed URL
reachable via both a feed-typed `<link>` tag and a feed-suggestive
anchor on the homepage is validated twice and appears twice in the same
result's feeds list — both occurrences produced by the HTML fallback.
Cross-phase duplication is impossible because the fallback runs only
when the known-path phase appended nothing. -/
theorem duplicate_within_html_phase :
    (discover_feeds env7 ("e.com")).1.feeds = [podcastHitW, podcastHitW]
    ∧ (discover_feeds env7 ("e.com")).1.status = Status.success := by decide
